import Mathlib

/-!
Shallow embedding of the bluestreak durable workflow engine (`src/index.js`).

The engine stores each workflow instance as one document in the `workflows`
collection; step outputs and nap wake instants live as nested maps
(`steps.<stepId>`, `naps.<napId>`) inside the instance document.  We model a
document as a `Workflow` structure, the collection as a list of documents
(`updateOne`/`findOne` act on the first document matching the `id` filter,
which the unique index on `id` makes unique in practice), and instants
(`Date` values) as integers in milliseconds.
-/

namespace Bluestreak

/-- Opaque JS payload values (`input`, step `output`, `result`).  `undef`
models JavaScript `undefined`: a missing object property reads as `undef`,
and `#step` uses `undef` as its cache-miss sentinel. -/
inductive Value where
  | undef
  | null
  | boolean (b : Bool)
  | num (n : Int)
  | str (s : String)
deriving DecidableEq, Repr

/-- Workflow instance status. -/
inductive Status where
  | idle
  | running
  | failed
  | aborted
  | finished
deriving DecidableEq, Repr

/-- One document of the `workflows` collection.  `steps` and `naps` are the
nested objects written by `#updateOutput` / `#updateWakeUpAt`; `result` starts
out as `undef` (the JS document has no `result` key until `#setAsFinished`,
and reading a missing key yields `undefined`). -/
structure Workflow where
  id : String
  handlerId : String
  input : Value
  failures : Nat
  status : Status
  timeoutAt : Int
  result : Value
  steps : List (String × Value)
  naps : List (String × Int)
deriving DecidableEq, Repr

/-- The `workflows` collection. -/
abbrev Store := List Workflow

/-- Mongo `findOne({ id: workflowId })`: first document whose `id` matches. -/
def findWorkflow (st : Store) (workflowId : String) : Option Workflow :=
  st.find? (fun w => w.id == workflowId)

/-- Mongo `updateOne({ id: workflowId }, ...)`: rewrite the first matching document
with `f`, leave everything else untouched (no upsert: no match, no write). -/
def updateFirst (st : Store) (workflowId : String) (f : Workflow → Workflow) : Store :=
  match st with
  | [] => []
  | w :: rest =>
    if w.id == workflowId then f w :: rest
    else w :: updateFirst rest workflowId f

/-- JS object property assignment `obj[k] = v` on a nested map. -/
def listSet {α : Type} (l : List (String × α)) (k : String) (v : α) : List (String × α) :=
  match l with
  | [] => [(k, v)]
  | (k₀, v₀) :: rest =>
    if k₀ == k then (k, v) :: rest
    else (k₀, v₀) :: listSet rest k v

/-- JS object property read `obj[k]` for `Value` maps: a missing key reads as
`undefined`. -/
def listGetValue (l : List (String × Value)) (k : String) : Value :=
  match l.find? (fun p => p.1 == k) with
  | some p => p.2
  | none => Value.undef

/-- Embeds `#findOutput(workflowId, stepId)`: project `steps.<stepId>` out of the
instance document; returns `undefined` when the workflow, the `steps` object
or the key is missing — and also when the key is present with value
`undefined`. -/
def findOutput (st : Store) (workflowId stepId : String) : Value :=
  match findWorkflow st workflowId with
  | some w => listGetValue w.steps stepId
  | none => Value.undef

/-- Embeds `#findWakeUpAt(workflowId, napId)`: project `naps.<napId>`; `none` models
JS `undefined` (a stored wake instant is a `Date`, which is always truthy). -/
def findWakeUpAt (st : Store) (workflowId napId : String) : Option Int :=
  (findWorkflow st workflowId).bind
    (fun w => (w.naps.find? (fun p => p.1 == napId)).map (fun p => p.2))

/-- Projection returned by `#findRunData`. -/
structure RunData where
  handlerId : String
  input : Value
  failures : Nat
deriving DecidableEq, Repr

/-- Embeds `#findRunData(workflowId)`: `none` models the `WorkflowNotFound` throw. -/
def findRunData (st : Store) (workflowId : String) : Option RunData :=
  (findWorkflow st workflowId).map
    (fun w => { handlerId := w.handlerId, input := w.input, failures := w.failures })

/-- Embeds `#findStatusAndResult(workflowId)`: `none` models `WorkflowNotFound`. -/
def findStatusAndResult (st : Store) (workflowId : String) : Option (Status × Value) :=
  (findWorkflow st workflowId).map (fun w => (w.status, w.result))

/-- Embeds `#insert(workflowId, handlerId, input)`: `insertOne` of a fresh document
with `failures = 0`, `status = "idle"`, `timeoutAt = now`.  The unique index
on `id` forbids insertion when the id is already present; callers model that
precondition explicitly. -/
def insertWorkflow (st : Store) (workflowId handlerId : String) (input : Value)
    (now : Int) : Store :=
  st ++ [{ id := workflowId, handlerId := handlerId, input := input, failures := 0,
           status := Status.idle, timeoutAt := now, result := Value.undef,
           steps := [], naps := [] }]

/-- Embeds `#updateOutput(workflowId, stepId, output, timeoutAt)`: a plain `$set` of
`steps.<stepId>` and `timeoutAt` on the matching instance document
(last-writer-wins; there is no `$setOnInsert` guard in `src/index.js`). -/
def updateOutput (st : Store) (workflowId stepId : String) (output : Value)
    (timeoutAt : Int) : Store :=
  updateFirst st workflowId
    (fun w => { w with steps := listSet w.steps stepId output, timeoutAt := timeoutAt })

/-- Embeds `#updateWakeUpAt(workflowId, napId, wakeUpAt, timeoutAt)`: `$set` of
`naps.<napId>` and `timeoutAt`. -/
def updateWakeUpAt (st : Store) (workflowId napId : String) (wakeUpAt timeoutAt : Int) :
    Store :=
  updateFirst st workflowId
    (fun w => { w with naps := listSet w.naps napId wakeUpAt, timeoutAt := timeoutAt })

/-- Embeds `#setAsFinished(workflowId, result)`: `$set` of `status = "finished"` and
`result`; `timeoutAt` untouched. -/
def setAsFinished (st : Store) (workflowId : String) (result : Value) : Store :=
  updateFirst st workflowId
    (fun w => { w with status := Status.finished, result := result })

/-- Embeds `#updateStatus(workflowId, status, timeoutAt, failures)`: `$set` of the
three fields on the matching instance. -/
def updateStatus (st : Store) (workflowId : String) (status : Status)
    (timeoutAt : Int) (failures : Nat) : Store :=
  updateFirst st workflowId
    (fun w => { w with status := status, timeoutAt := timeoutAt, failures := failures })

/-- The filter of `#claim`'s `findOneAndUpdate`:
`status ∈ {idle, running, failed} ∧ timeoutAt < now`. -/
def claimPred (now : Int) (w : Workflow) : Bool :=
  (w.status == Status.idle || w.status == Status.running || w.status == Status.failed)
    && w.timeoutAt < now

/-- Embeds `#claim()`: `findOneAndUpdate` over the claim filter — atomically pick one
matching document (the store picks; we determinize to the first match), set
`status = "running"` and `timeoutAt = now + timeoutInterval`, and return the
matched document's `id`; `(none, st)` models the miss (`workflow?.id` is
`undefined`). -/
def claim (st : Store) (now timeoutInterval : Int) : Option String × Store :=
  match st with
  | [] => (none, [])
  | w :: rest =>
    if claimPred now w then
      (some w.id, { w with status := Status.running, timeoutAt := now + timeoutInterval } :: rest)
    else
      let r := claim rest now timeoutInterval
      (r.1, w :: r.2)

/-- Embeds `ctx.step(stepId, fn)` (the closure built by `#step(workflowId)`).  `fn`
is the user callback; we record in the third component whether it was
invoked.  Translated line by line: read `#findOutput`; if the value is not
`undefined` return it without calling `fn`; otherwise call `fn` and persist
via `#updateOutput` with `timeoutAt = now + timeoutInterval`. -/
def stepRun (timeoutInterval : Int) (st : Store) (workflowId stepId : String)
    (fn : Unit → Value) (now : Int) : Value × Store × Bool :=
  let output := findOutput st workflowId stepId
  if output ≠ Value.undef then
    (output, st, false)
  else
    let o := fn ()
    (o, updateOutput st workflowId stepId o (now + timeoutInterval), true)

/-- Embeds `ctx.sleep(napId, ms)` (the closure built by `#sleep(workflowId)`).  The
second component is the duration passed to `#goSleep` (0 when the call
returns without sleeping).  Translated line by line: read `#findWakeUpAt`;
if a wake instant exists sleep for the positive remainder and write nothing;
otherwise persist `wakeUpAt = now + ms` together with the instance
`timeoutAt = wakeUpAt + timeoutInterval`, then sleep for `ms`. -/
def sleepRun (timeoutInterval : Int) (st : Store) (workflowId napId : String)
    (ms now : Int) : Store × Int :=
  match findWakeUpAt st workflowId napId with
  | some wakeUpAt =>
    let remainingMs := wakeUpAt - now
    (st, if remainingMs > 0 then remainingMs else 0)
  | none =>
    let wakeUpAt := now + ms
    let timeoutAt := wakeUpAt + timeoutInterval
    (updateWakeUpAt st workflowId napId wakeUpAt timeoutAt, ms)

/-- The status computation of `#run`'s catch branch:
`status = "aborted"` iff `maxFailures !== undefined && failures > maxFailures`,
else `"failed"`. -/
def failureStatus (maxFailures : Option Nat) (failures : Nat) : Status :=
  match maxFailures with
  | some m => if failures > m then Status.aborted else Status.failed
  | none => Status.failed

/-- The catch branch of `#run` for a handler failure `err`, starting from the
`failures` snapshot read by `#findRunData` at run start: record the failure
via `#updateStatus`, then invoke the error callback when configured.  The
callback call is not wrapped in any try/catch, so an exception it throws
propagates out of `#run`; the second component carries that propagated
exception (`none` = the run resolves normally). -/
def runCatch (maxFailures : Option Nat) (waitRetryInterval : Int)
    (errorCallback : Option (String → Value → Except Value Unit)) (st : Store)
    (workflowId : String) (failures0 : Nat) (err : Value) (now : Int) :
    Store × Option Value :=
  let failures := failures0 + 1
  let status := failureStatus maxFailures failures
  let st₁ := updateStatus st workflowId status (now + waitRetryInterval) failures
  match errorCallback with
  | none => (st₁, none)
  | some cb =>
    match cb workflowId err with
    | Except.ok _ => (st₁, none)
    | Except.error e => (st₁, some e)

/-- The two failure kinds `wait` can raise. -/
inductive WaitOutcome where
  | workflowNotFound
  | waitTimeout
deriving DecidableEq, Repr

/-- The loop body of `wait`, probing from iteration `i` with the remaining
retry budget as fuel.  `stores i` is the content of the `workflows`
collection at the instant of the `i`-th probe (the store may change between
probes). -/
def waitFrom (stores : Nat → Store) (workflowId : String) (i : Nat) :
    Nat → Except WaitOutcome Value
  | 0 => Except.error WaitOutcome.waitTimeout
  | fuel + 1 =>
    match findStatusAndResult (stores i) workflowId with
    | none => Except.error WaitOutcome.workflowNotFound
    | some d =>
      if d.1 = Status.finished then Except.ok d.2
      else waitFrom stores workflowId (i + 1) fuel

/-- Embeds `wait(workflowId, retries, pauseInterval)`: up to `retries` probes
of `#findStatusAndResult`, returning the `result` on the first probe that
observes `status = "finished"`, `WorkflowNotFound` on a probe that misses the
instance, and `WaitTimeout` once the budget is exhausted.  The
`pauseInterval` sleep between probes has no effect on the outcome and is not
modelled. -/
def waitRun (stores : Nat → Store) (workflowId : String) (retries : Nat) :
    Except WaitOutcome Value :=
  waitFrom stores workflowId 0 retries

/-- One `#run` invocation whose handler throws: `#findRunData` reads the
`failures` snapshot (a miss would throw `WorkflowNotFound` before any write,
leaving the store unchanged), then the catch branch records
`failures + 1` with `#updateStatus`.  The error callback does not touch
the store, so it is omitted here (see `runCatch` for its behaviour). -/
def runFailStep (maxFailures : Option Nat) (waitRetryInterval : Int) (st : Store)
    (workflowId : String) (now : Int) : Store :=
  match findRunData st workflowId with
  | some rd =>
      updateStatus st workflowId (failureStatus maxFailures (rd.failures + 1))
        (now + waitRetryInterval) (rd.failures + 1)
  | none => st

/-- One iteration of the `poll` loop against a handler that always throws:
`#claim` one due instance and, if one was claimed, run it to its failing
finalization.  (In `src/index.js` the claim and the catch branch each take
their own `new Date()`; we pass the single instant `now` for both.) -/
def pollFailCycle (timeoutInterval waitRetryInterval : Int) (maxFailures : Option Nat)
    (st : Store) (now : Int) : Store :=
  match claim st now timeoutInterval with
  | (some workflowId, st₁) => runFailStep maxFailures waitRetryInterval st₁ workflowId now
  | (none, st₁) => st₁

/-- Iterate `pollFailCycle`; the `n`-th cycle runs at instant `times n`. -/
def pollFailIter (timeoutInterval waitRetryInterval : Int) (maxFailures : Option Nat)
    (times : Nat → Int) (st : Store) : Nat → Store
  | 0 => st
  | n + 1 =>
    pollFailCycle timeoutInterval waitRetryInterval maxFailures
      (pollFailIter timeoutInterval waitRetryInterval maxFailures times st n) (times n)

/-- The document `start` creates (`#insert` with `failures = 0`,
`status = "idle"`, `timeoutAt = now`). -/
def initialWorkflow (workflowId handlerId : String) (input : Value) (now : Int) :
    Workflow :=
  { id := workflowId, handlerId := handlerId, input := input, failures := 0,
    status := Status.idle, timeoutAt := now, result := Value.undef,
    steps := [], naps := [] }

/-- A run in flight: `#run` captured its `failures` snapshot with
`#findRunData` and has not yet finalized. -/
structure RunToken where
  workflowId : String
  failures : Nat
deriving DecidableEq, Repr

/-- Whole-system state: the shared store, the runs claimed by `poll` whose
`#findRunData` has not executed yet (`pending`), the runs past that read
(`active`), and the current instant.  Several workers polling the same store
are modelled by allowing any number of in-flight runs. -/
structure Sys where
  store : Store
  pending : List String
  active : List RunToken
  time : Int
deriving DecidableEq, Repr

/-- Engine transitions over the shared store.  Each constructor is one
suspension-point-to-suspension-point slice of `poll` / `#run` / `ctx.step` /
`ctx.sleep`; `now` only moves forward.  The step/nap write constructors are
not conditioned on the current store because the cache-miss read that guards
them in `#step`/`#sleep` happened at an earlier suspension point, after which
the store may have changed (writes go through unguarded `updateOne` by
`id`). -/
inductive SysStep (timeoutInterval waitRetryInterval : Int) (maxFailures : Option Nat) :
    Sys → Sys → Prop where
  | claimOne (s : Sys) (now : Int) (workflowId : String) (st₁ : Store) :
      s.time ≤ now →
      claim s.store now timeoutInterval = (some workflowId, st₁) →
      SysStep timeoutInterval waitRetryInterval maxFailures s
        ⟨st₁, s.pending ++ [workflowId], s.active, now⟩
  | readRun (s : Sys) (now : Int) (workflowId : String) (rd : RunData) :
      s.time ≤ now →
      workflowId ∈ s.pending →
      findRunData s.store workflowId = some rd →
      SysStep timeoutInterval waitRetryInterval maxFailures s
        ⟨s.store, s.pending.erase workflowId,
          { workflowId := workflowId, failures := rd.failures } :: s.active, now⟩
  | finishOk (s : Sys) (now : Int) (tok : RunToken) (result : Value) :
      s.time ≤ now →
      tok ∈ s.active →
      SysStep timeoutInterval waitRetryInterval maxFailures s
        ⟨setAsFinished s.store tok.workflowId result, s.pending, s.active.erase tok, now⟩
  | finishErr (s : Sys) (now : Int) (tok : RunToken) :
      s.time ≤ now →
      tok ∈ s.active →
      SysStep timeoutInterval waitRetryInterval maxFailures s
        ⟨updateStatus s.store tok.workflowId
            (failureStatus maxFailures (tok.failures + 1))
            (now + waitRetryInterval) (tok.failures + 1),
          s.pending, s.active.erase tok, now⟩
  | stepWrite (s : Sys) (now : Int) (tok : RunToken) (stepId : String) (output : Value) :
      s.time ≤ now →
      tok ∈ s.active →
      SysStep timeoutInterval waitRetryInterval maxFailures s
        ⟨updateOutput s.store tok.workflowId stepId output (now + timeoutInterval),
          s.pending, s.active, now⟩
  | napWrite (s : Sys) (now : Int) (tok : RunToken) (napId : String) (ms : Int) :
      s.time ≤ now →
      tok ∈ s.active →
      SysStep timeoutInterval waitRetryInterval maxFailures s
        ⟨updateWakeUpAt s.store tok.workflowId napId (now + ms) (now + ms + timeoutInterval),
          s.pending, s.active, now⟩
  | startNew (s : Sys) (now : Int) (workflowId handlerId : String) (input : Value) :
      s.time ≤ now →
      findWorkflow s.store workflowId = none →
      SysStep timeoutInterval waitRetryInterval maxFailures s
        ⟨insertWorkflow s.store workflowId handlerId input now, s.pending, s.active, now⟩

/-- The unique index on `id`: no two documents share a `workflowId`. -/
def idsNodup (st : Store) : Prop :=
  (st.map Workflow.id).Nodup

/-- No run (claimed or reading/running) is in flight for `workflowId`. -/
def runFree (s : Sys) (workflowId : String) : Prop :=
  workflowId ∉ s.pending ∧ ∀ tok ∈ s.active, tok.workflowId ≠ workflowId

/-- Concrete fixture store: one running instance that already holds a
recorded output for step `s1`. -/
def exRecordedStore : Store :=
  [{ id := "w1", handlerId := "h", input := Value.null, failures := 0,
     status := Status.running, timeoutAt := 0, result := Value.undef,
     steps := [("s1", Value.str "old")], naps := [] }]

/-- Concrete fixture store: one running instance whose step `s1` was recorded
with the JS value `undefined` (the key is present, the value is `undefined`). -/
def exUndefStepStore : Store :=
  [{ id := "w1", handlerId := "h", input := Value.null, failures := 0,
     status := Status.running, timeoutAt := 0, result := Value.undef,
     steps := [("s1", Value.undef)], naps := [] }]

/-- An error callback that itself throws. -/
def exThrowingCallback : String → Value → Except Value Unit :=
  fun _ _ => Except.error (Value.str "boom")

/-- Concrete fixture store: one running instance with the recorded output
`"cached"` for step `s1`. -/
def exCachedStore : Store :=
  [{ id := "w1", handlerId := "h", input := Value.null, failures := 0,
     status := Status.running, timeoutAt := 0, result := Value.undef,
     steps := [("s1", Value.str "cached")], naps := [] }]

/-- Concrete fixture store: one running instance holding a nap record for
`n1` with `wakeUpAt = 1_005_000`. -/
def exNapStore : Store :=
  [{ id := "w1", handlerId := "h", input := Value.null, failures := 0,
     status := Status.running, timeoutAt := 0, result := Value.undef,
     steps := [], naps := [("n1", 1005000)] }]

/-- Cycle schedule for the retry-progress witness: cycle `i` runs at
`2000 * i + 2000`. -/
def exTimes (i : Nat) : Int :=
  2000 * (i : Int) + 2000

/-- The expected instance document after `i` claim-plus-failing-run cycles
starting from `w0` (see `pollFailIter_invariant`). -/
def failDoc (w0 : Workflow) (m : Nat) (waitRetryInterval : Int)
    (times : Nat → Int) : Nat → Workflow
  | 0 => w0
  | n + 1 =>
    { w0 with
        failures := n + 1,
        status := failureStatus (some m) (n + 1),
        timeoutAt := times n + waitRetryInterval }

/-- Store trajectory observed by a `wait` witness: the instance is running at
the first probe and finished with result `"ok"` from the second probe on. -/
def exWaitStores (i : Nat) : Store :=
  if i = 0 then
    [{ id := "w1", handlerId := "h", input := Value.null, failures := 0,
       status := Status.running, timeoutAt := 10000, result := Value.undef,
       steps := [], naps := [] }]
  else
    [{ id := "w1", handlerId := "h", input := Value.null, failures := 0,
       status := Status.finished, timeoutAt := 10000, result := Value.str "ok",
       steps := [], naps := [] }]

/-- Store trajectory observed by a `wait` witness: permanently aborted. -/
def exAbortedStores (_ : Nat) : Store :=
  [{ id := "w1", handlerId := "h", input := Value.null, failures := 4,
     status := Status.aborted, timeoutAt := 10000, result := Value.undef,
     steps := [], naps := [] }]

/-- A finished instance document. -/
def exTermDoc : Workflow :=
  { id := "w1", handlerId := "h", input := Value.null, failures := 0,
    status := Status.finished, timeoutAt := 0, result := Value.str "ok",
    steps := [], naps := [] }

/-- A system state holding one finished instance and no in-flight run. -/
def exTermSys : Sys :=
  { store := [exTermDoc], pending := [], active := [], time := 0 }

/-- Overlapping-lease scenario, initial state: one idle instance due at 0. -/
def exSys0 : Sys :=
  { store := [initialWorkflow "w1" "h" Value.null 0], pending := [], active := [], time := 0 }

/-- Overlapping-lease scenario after: worker A claims at 1 and reads
`failures = 0`; worker B claims again at 10002 (A's lease expired), reads,
and finishes successfully at 10004.  The instance is finished while A's run
is still in flight. -/
def exSys5 : Sys :=
  { store := [{ id := "w1", handlerId := "h", input := Value.null, failures := 0,
                status := Status.finished, timeoutAt := 20002, result := Value.str "ok",
                steps := [], naps := [] }],
    pending := [], active := [{ workflowId := "w1", failures := 0 }], time := 10004 }

/-- Overlapping-lease scenario end: worker A's handler throws at 10005 and its
finalization overwrites the finished instance. -/
def exSys6 : Sys :=
  { store := [{ id := "w1", handlerId := "h", input := Value.null, failures := 1,
                status := Status.failed, timeoutAt := 11005, result := Value.str "ok",
                steps := [], naps := [] }],
    pending := [], active := [], time := 10005 }

/-! ### Helper lemmas about the store operations -/

theorem findWorkflow_cons (w : Workflow) (rest : Store) (wid : String) :
    findWorkflow (w :: rest) wid =
      if w.id = wid then some w else findWorkflow rest wid := by
  by_cases h : w.id = wid
  · simp [findWorkflow, List.find?, h]
  · simp [findWorkflow, List.find?, h, beq_eq_false_iff_ne.mpr h]

theorem findWorkflow_append_left (st rest : Store) (wid : String) (w : Workflow)
    (h : findWorkflow st wid = some w) :
    findWorkflow (st ++ rest) wid = some w := by
  induction st with
  | nil => simp [findWorkflow] at h
  | cons w₀ tl ih =>
    rw [findWorkflow_cons] at h
    rw [List.cons_append, findWorkflow_cons]
    by_cases h₀ : w₀.id = wid
    · simpa [h₀] using h
    · simp only [h₀, if_false] at h ⊢
      exact ih h

theorem findWorkflow_updateFirst_self (st : Store) (wid : String) (f : Workflow → Workflow)
    (hf : ∀ w, (f w).id = w.id) :
    findWorkflow (updateFirst st wid f) wid = (findWorkflow st wid).map f := by
  induction st with
  | nil => simp [findWorkflow, updateFirst]
  | cons w rest ih =>
    by_cases h : w.id = wid
    · simp [updateFirst, h, findWorkflow_cons, hf]
    · simp only [updateFirst, beq_iff_eq, h, if_false]
      rw [findWorkflow_cons, findWorkflow_cons]
      simp [h, ih]

theorem findWorkflow_updateFirst_other (st : Store) (wid wid₂ : String)
    (f : Workflow → Workflow) (hf : ∀ w, (f w).id = w.id) (h : wid₂ ≠ wid) :
    findWorkflow (updateFirst st wid f) wid₂ = findWorkflow st wid₂ := by
  induction st with
  | nil => simp [updateFirst]
  | cons w rest ih =>
    by_cases hw : w.id = wid
    · rw [updateFirst, if_pos (by simpa using hw), findWorkflow_cons, findWorkflow_cons,
        hf, hw, if_neg (fun hc => h hc.symm), if_neg (fun hc => h hc.symm)]
    · rw [updateFirst, if_neg (by simpa using hw), findWorkflow_cons, findWorkflow_cons, ih]

theorem updateFirst_not_found (st : Store) (wid : String) (f : Workflow → Workflow)
    (h : findWorkflow st wid = none) :
    updateFirst st wid f = st := by
  induction st with
  | nil => rfl
  | cons w rest ih =>
    rw [findWorkflow_cons] at h
    by_cases hw : w.id = wid
    · simp [hw] at h
    · simp only [hw, if_false] at h
      rw [updateFirst, if_neg (by simpa using hw), ih h]

theorem updateFirst_map_id (st : Store) (wid : String) (f : Workflow → Workflow)
    (hf : ∀ w, (f w).id = w.id) :
    (updateFirst st wid f).map Workflow.id = st.map Workflow.id := by
  induction st with
  | nil => rfl
  | cons w rest ih =>
    by_cases hw : w.id = wid
    · simp [updateFirst, hw, hf]
    · simp [updateFirst, hw, ih]

theorem listSet_find_self {α : Type} (l : List (String × α)) (k : String) (v : α) :
    (listSet l k v).find? (fun p => p.1 == k) = some (k, v) := by
  induction l with
  | nil => simp [listSet, List.find?]
  | cons p rest ih =>
    by_cases h : p.1 = k
    · simp [listSet, h, List.find?]
    · simp only [listSet, beq_iff_eq, h, if_false]
      simp [List.find?, h, ih, beq_eq_false_iff_ne.mpr h]

theorem listGetValue_listSet_self (l : List (String × Value)) (k : String) (v : Value) :
    listGetValue (listSet l k v) k = v := by
  rw [listGetValue, listSet_find_self]

theorem findWorkflow_mem (st : Store) (wid : String) (w : Workflow)
    (h : findWorkflow st wid = some w) : w ∈ st ∧ w.id = wid := by
  induction st with
  | nil => simp [findWorkflow] at h
  | cons w₀ rest ih =>
    rw [findWorkflow_cons] at h
    by_cases hw : w₀.id = wid
    · simp only [hw, if_true] at h
      cases h
      exact ⟨List.mem_cons_self _ _, hw⟩
    · simp only [hw, if_false] at h
      exact ⟨List.mem_cons_of_mem _ (ih h).1, (ih h).2⟩

theorem findWorkflow_eq_none (st : Store) (wid : String)
    (h : findWorkflow st wid = none) : ∀ w ∈ st, w.id ≠ wid := by
  intro w hw
  induction st with
  | nil => simp at hw
  | cons w₀ rest ih =>
    rw [findWorkflow_cons] at h
    by_cases h₀ : w₀.id = wid
    · simp [h₀] at h
    · simp only [h₀, if_false] at h
      rcases List.mem_cons.mp hw with rfl | hmem
      · exact h₀
      · exact ih h hmem

theorem findWorkflow_unique (st : Store) (wid : String) (w : Workflow)
    (hnd : idsNodup st) (h : findWorkflow st wid = some w) :
    ∀ u ∈ st, u.id = wid → u = w := by
  induction st with
  | nil => simp
  | cons w₀ rest ih =>
    intro u hu hid
    rw [findWorkflow_cons] at h
    have hnd₂ : (rest.map Workflow.id).Nodup := (List.nodup_cons.mp hnd).2
    have hmem : w₀.id ∉ rest.map Workflow.id := (List.nodup_cons.mp hnd).1
    by_cases h₀ : w₀.id = wid
    · simp only [h₀, if_true] at h
      cases h
      rcases List.mem_cons.mp hu with rfl | hmem₂
      · rfl
      · exact absurd (h₀ ▸ hid ▸ List.mem_map_of_mem Workflow.id hmem₂) hmem
    · simp only [h₀, if_false] at h
      rcases List.mem_cons.mp hu with rfl | hmem₂
      · exact absurd hid h₀
      · exact ih hnd₂ h u hmem₂ hid

theorem claim_fst_none (st : Store) (now tI : Int) (h : (claim st now tI).1 = none) :
    (claim st now tI).2 = st ∧ ∀ w ∈ st, claimPred now w = false := by
  induction st with
  | nil => exact ⟨rfl, by simp⟩
  | cons w rest ih =>
    by_cases hp : claimPred now w = true
    · simp [claim, hp] at h
    · simp only [claim, hp, Bool.false_eq_true, if_false] at h ⊢
      rcases ih h with ⟨h₂, h₃⟩
      refine ⟨by rw [h₂], ?_⟩
      intro u hu
      rcases List.mem_cons.mp hu with rfl | hmem
      · exact Bool.not_eq_true _ ▸ hp
      · exact h₃ u hmem

theorem claim_fst_none_of (st : Store) (now tI : Int)
    (h : ∀ w ∈ st, claimPred now w = false) : (claim st now tI).1 = none := by
  induction st with
  | nil => rfl
  | cons w rest ih =>
    have hp : claimPred now w = false := h w (List.mem_cons_self _ _)
    simp only [claim, hp, Bool.false_eq_true, if_false]
    exact ih (fun u hu => h u (List.mem_cons_of_mem _ hu))

theorem claim_fst_some (st : Store) (now tI : Int) (wid : String)
    (h : (claim st now tI).1 = some wid) :
    ∃ u ∈ st, u.id = wid ∧ claimPred now u = true := by
  induction st with
  | nil => simp [claim] at h
  | cons w rest ih =>
    by_cases hp : claimPred now w = true
    · simp only [claim, hp, if_true] at h
      cases h
      exact ⟨w, List.mem_cons_self _ _, rfl, hp⟩
    · simp only [claim, hp, Bool.false_eq_true, if_false] at h
      rcases ih h with ⟨u, hu, hid, hup⟩
      exact ⟨u, List.mem_cons_of_mem _ hu, hid, hup⟩

theorem claim_findWorkflow (st : Store) (now tI : Int) (wid : String) (w : Workflow)
    (hnd : idsNodup st) (h : (claim st now tI).1 = some wid)
    (hw : findWorkflow st wid = some w) :
    claimPred now w = true ∧
    findWorkflow (claim st now tI).2 wid
      = some { w with status := Status.running, timeoutAt := now + tI } := by
  induction st with
  | nil => simp [claim] at h
  | cons w₀ rest ih =>
    rw [findWorkflow_cons] at hw
    have hnd₂ : (rest.map Workflow.id).Nodup := (List.nodup_cons.mp hnd).2
    have hnotin : w₀.id ∉ rest.map Workflow.id := (List.nodup_cons.mp hnd).1
    by_cases hp : claimPred now w₀ = true
    · simp only [claim, hp, if_true] at h ⊢
      cases h
      simp only [if_pos rfl] at hw
      cases hw
      rw [findWorkflow_cons]
      simp [hp]
    · simp only [claim, hp, Bool.false_eq_true, if_false] at h ⊢
      by_cases hid : w₀.id = wid
      · exfalso
        rcases claim_fst_some rest now tI wid h with ⟨u, hu, huid, _⟩
        exact hnotin (hid ▸ huid ▸ List.mem_map_of_mem Workflow.id hu)
      · simp only [hid, if_false] at hw
        rw [findWorkflow_cons]
        simp only [hid, if_false]
        exact ih hnd₂ h hw

theorem claim_frame (st : Store) (now tI : Int) (wid₂ : String)
    (h : ∀ u ∈ st, u.id = wid₂ → claimPred now u = false) :
    findWorkflow (claim st now tI).2 wid₂ = findWorkflow st wid₂ := by
  induction st with
  | nil => rfl
  | cons w rest ih =>
    by_cases hp : claimPred now w = true
    · have hid : w.id ≠ wid₂ := by
        intro hc
        rw [h w (List.mem_cons_self _ _) hc] at hp
        exact Bool.false_ne_true hp
      simp only [claim, hp, if_true]
      rw [findWorkflow_cons, findWorkflow_cons]
      simp [hid]
    · simp only [claim, hp, Bool.false_eq_true, if_false]
      rw [findWorkflow_cons, findWorkflow_cons]
      by_cases hid : w.id = wid₂
      · simp [hid]
      · simp only [hid, if_false]
        exact ih (fun u hu => h u (List.mem_cons_of_mem _ hu))

theorem claim_map_id (st : Store) (now tI : Int) :
    (claim st now tI).2.map Workflow.id = st.map Workflow.id := by
  induction st with
  | nil => rfl
  | cons w rest ih =>
    by_cases hp : claimPred now w = true
    · simp [claim, hp]
    · simp [claim, hp, ih]

/-! ### Derived read-after-write lemmas -/

theorem findOutput_updateOutput_self (st : Store) (workflowId stepId : String)
    (v : Value) (t : Int) (w : Workflow) (hw : findWorkflow st workflowId = some w) :
    findOutput (updateOutput st workflowId stepId v t) workflowId stepId = v := by
  have h₂ := findWorkflow_updateFirst_self st workflowId
    (fun u => { u with steps := listSet u.steps stepId v, timeoutAt := t }) (fun _ => rfl)
  rw [hw] at h₂
  simp only [Option.map_some'] at h₂
  simp [findOutput, updateOutput, h₂, listGetValue_listSet_self]

theorem findOutput_updateOutput_absent (st : Store) (workflowId stepId : String)
    (v : Value) (t : Int) (hw : findWorkflow st workflowId = none) :
    findOutput (updateOutput st workflowId stepId v t) workflowId stepId
      = findOutput st workflowId stepId := by
  rw [updateOutput, updateFirst_not_found _ _ _ hw]

theorem findOutput_updateOutput_undef (st : Store) (workflowId stepId : String) (t : Int) :
    findOutput (updateOutput st workflowId stepId Value.undef t) workflowId stepId
      = Value.undef := by
  cases hw : findWorkflow st workflowId with
  | some w => exact findOutput_updateOutput_self st workflowId stepId _ t w hw
  | none =>
    rw [findOutput_updateOutput_absent st workflowId stepId _ t hw]
    simp [findOutput, hw]

theorem findWakeUpAt_updateWakeUpAt (st : Store) (workflowId napId : String)
    (wakeUpAt t : Int) (w : Workflow) (hw : findWorkflow st workflowId = some w) :
    findWakeUpAt (updateWakeUpAt st workflowId napId wakeUpAt t) workflowId napId
      = some wakeUpAt := by
  have h₂ := findWorkflow_updateFirst_self st workflowId
    (fun u => { u with naps := listSet u.naps napId wakeUpAt, timeoutAt := t }) (fun _ => rfl)
  rw [hw] at h₂
  simp only [Option.map_some'] at h₂
  simp [findWakeUpAt, updateWakeUpAt, h₂, listSet_find_self]

theorem stepRun_invoked_iff (timeoutInterval : Int) (st : Store)
    (workflowId stepId : String) (fn : Unit → Value) (now : Int) :
    (stepRun timeoutInterval st workflowId stepId fn now).2.2 = true
      ↔ findOutput st workflowId stepId = Value.undef := by
  by_cases hm : findOutput st workflowId stepId = Value.undef
  · simp [stepRun, hm]
  · simp [stepRun, hm]

/-! ### Claim theorems -/

/-- C2: when a step record for `(workflowId, stepId)` already exists (its
recorded output reads as a defined value — the only notion of "record
exists" in the single-document store of `src/index.js`), `ctx.step` returns
the recorded output immediately, leaves the store unchanged, and never
invokes `fn`. -/
theorem step_cache_hit (timeoutInterval : Int) (st : Store) (workflowId stepId : String)
    (fn : Unit → Value) (now : Int) (v : Value)
    (hrec : findOutput st workflowId stepId = v) (hdef : v ≠ Value.undef) :
    stepRun timeoutInterval st workflowId stepId fn now = (v, st, false) := by
  simp [stepRun, hrec, hdef]

/-- Witness for C2 at the spec's literal scenario: pre-existing record
`(w1, "s1", "cached")`, `fn = () => "fresh"`: the call returns `"cached"`,
the step collection is unchanged, `fn` is never invoked. -/
theorem step_cache_hit_witness :
    findOutput exCachedStore "w1" "s1" = Value.str "cached"
    ∧ Value.str "cached" ≠ Value.undef
    ∧ stepRun 10000 exCachedStore "w1" "s1" (fun _ => Value.str "fresh") 1000000
        = (Value.str "cached", exCachedStore, false) :=
  ⟨by decide, by decide,
    step_cache_hit 10000 exCachedStore "w1" "s1" (fun _ => Value.str "fresh") 1000000
      (Value.str "cached") (by decide) (by decide)⟩

/-- C1 (counterexample): the `#updateOutput` write realizing `putStepOutput`
does not have insert-only semantics: on a store already holding the recorded
output `"old"` for `(w1, s1)`, the write replaces it with `"new"`. -/
theorem putStepOutput_insert_only_counterexample :
    findOutput exRecordedStore "w1" "s1" = Value.str "old"
    ∧ findOutput (updateOutput exRecordedStore "w1" "s1" (Value.str "new") 99) "w1" "s1"
        = Value.str "new"
    ∧ Value.str "new" ≠ Value.str "old" :=
  ⟨by decide, by decide, by decide⟩

/-- C1 (amended): `#updateOutput` is a last-writer-wins `$set` — it replaces
any existing recorded output with the new value; the recorded output is left
unmodified by a later `step` invocation only because `#step` skips the write
entirely when it reads a defined recorded output. -/
theorem putStepOutput_last_writer_wins (st : Store) (workflowId stepId : String)
    (v : Value) (t : Int) (w : Workflow) (hw : findWorkflow st workflowId = some w) :
    findOutput (updateOutput st workflowId stepId v t) workflowId stepId = v
    ∧ ∀ (timeoutInterval : Int) (fn : Unit → Value) (now : Int),
        findOutput st workflowId stepId ≠ Value.undef →
        stepRun timeoutInterval st workflowId stepId fn now
          = (findOutput st workflowId stepId, st, false) := by
  refine ⟨findOutput_updateOutput_self st workflowId stepId v t w hw, ?_⟩
  intro tI fn now hdef
  simp [stepRun, hdef]

/-- Witness for the amended C1: overwriting the recorded `"old"` with `"new"`
succeeds, while a `step` call on the same store performs no write. -/
theorem putStepOutput_last_writer_wins_witness :
    findOutput (updateOutput exRecordedStore "w1" "s1" (Value.str "new") 99) "w1" "s1"
      = Value.str "new"
    ∧ stepRun 10000 exRecordedStore "w1" "s1" (fun _ => Value.str "fresh") 7
        = (findOutput exRecordedStore "w1" "s1", exRecordedStore, false) := by
  have h := putStepOutput_last_writer_wins exRecordedStore "w1" "s1" (Value.str "new") 99
    { id := "w1", handlerId := "h", input := Value.null, failures := 0,
      status := Status.running, timeoutAt := 0, result := Value.undef,
      steps := [("s1", Value.str "old")], naps := [] } (by decide)
  exact ⟨h.1, h.2 10000 (fun _ => Value.str "fresh") 7 (by decide)⟩

/-- C10: a step output recorded as JS `undefined` is never treated as
recorded.  The cache check of `#step` compares the stored output against
`undefined`, so `fn` is invoked exactly when the stored output reads as
`undefined`; and after a run whose `fn` resolved to `undefined`, the stored
output still reads as `undefined`, so every replay re-invokes `fn`. -/
theorem step_undefined_not_recorded (timeoutInterval : Int) (st : Store)
    (workflowId stepId : String) (fn : Unit → Value) (now : Int)
    (hfn : fn () = Value.undef) :
    ((stepRun timeoutInterval st workflowId stepId fn now).2.2 = true
        ↔ findOutput st workflowId stepId = Value.undef)
    ∧ (findOutput st workflowId stepId = Value.undef →
        findOutput (stepRun timeoutInterval st workflowId stepId fn now).2.1
            workflowId stepId = Value.undef
        ∧ ∀ (fn₂ : Unit → Value) (now₂ : Int),
            (stepRun timeoutInterval
                (stepRun timeoutInterval st workflowId stepId fn now).2.1
                workflowId stepId fn₂ now₂).2.2 = true) := by
  constructor
  · exact stepRun_invoked_iff timeoutInterval st workflowId stepId fn now
  · intro hm
    have hst : (stepRun timeoutInterval st workflowId stepId fn now).2.1
        = updateOutput st workflowId stepId Value.undef (now + timeoutInterval) := by
      simp [stepRun, hm, hfn]
    have hout : findOutput (stepRun timeoutInterval st workflowId stepId fn now).2.1
        workflowId stepId = Value.undef := by
      rw [hst]
      exact findOutput_updateOutput_undef st workflowId stepId _
    refine ⟨hout, ?_⟩
    intro fn₂ now₂
    exact (stepRun_invoked_iff timeoutInterval _ workflowId stepId fn₂ now₂).mpr hout

/-- Witness for C10 on a store whose step `s1` is recorded with value
`undefined`: the call invokes `fn`, and the replay invokes it again. -/
theorem step_undefined_not_recorded_witness :
    ((fun (_ : Unit) => Value.undef) () = Value.undef)
    ∧ (stepRun 10000 exUndefStepStore "w1" "s1" (fun _ => Value.undef) 5).2.2 = true
    ∧ findOutput (stepRun 10000 exUndefStepStore "w1" "s1" (fun _ => Value.undef) 5).2.1
        "w1" "s1" = Value.undef := by
  have h := step_undefined_not_recorded 10000 exUndefStepStore "w1" "s1"
    (fun _ => Value.undef) 5 rfl
  exact ⟨rfl, h.1.mpr (by decide), (h.2 (by decide)).1⟩

/-- C8: when `ctx.sleep(napId, ms)` finds an existing nap record, it writes
no nap record and does not update the instance lease (the store is returned
unchanged), suspending for `wakeUpAt - now` when that is positive and
returning immediately (zero suspension) otherwise; so the recorded
`wakeUpAt` is never revised by a replayed sleep. -/
theorem sleep_existing_record (timeoutInterval : Int) (st : Store)
    (workflowId napId : String) (ms now wakeUpAt : Int)
    (h : findWakeUpAt st workflowId napId = some wakeUpAt) :
    sleepRun timeoutInterval st workflowId napId ms now
      = (st, if wakeUpAt - now > 0 then wakeUpAt - now else 0) := by
  simp [sleepRun, h]

/-- Witness for C8: with the recorded wake instant 1_005_000, entering at
1_002_000 suspends 3000 and changes nothing; entering at 1_006_000 returns
immediately and changes nothing. -/
theorem sleep_existing_record_witness :
    sleepRun 10000 exNapStore "w1" "n1" 5000 1002000 = (exNapStore, 3000)
    ∧ sleepRun 10000 exNapStore "w1" "n1" 5000 1006000 = (exNapStore, 0) :=
  ⟨(sleep_existing_record 10000 exNapStore "w1" "n1" 5000 1002000 1005000 (by decide)).trans
      (by decide),
    (sleep_existing_record 10000 exNapStore "w1" "n1" 5000 1006000 1005000 (by decide)).trans
      (by decide)⟩

/-- C7: when no nap record exists, `ctx.sleep(napId, ms)` entered at `now`
writes `wakeUpAt = now + ms` for `(workflowId, napId)`, sets the instance's
`timeoutAt` to `wakeUpAt + timeoutInterval`, and suspends for `ms`. -/
theorem sleep_first_entry (timeoutInterval : Int) (st : Store)
    (workflowId napId : String) (ms now : Int) (w : Workflow)
    (habsent : findWakeUpAt st workflowId napId = none)
    (hw : findWorkflow st workflowId = some w) :
    sleepRun timeoutInterval st workflowId napId ms now
      = (updateWakeUpAt st workflowId napId (now + ms) (now + ms + timeoutInterval), ms)
    ∧ findWakeUpAt (sleepRun timeoutInterval st workflowId napId ms now).1
        workflowId napId = some (now + ms)
    ∧ findWorkflow (sleepRun timeoutInterval st workflowId napId ms now).1 workflowId
        = some { w with naps := listSet w.naps napId (now + ms),
                        timeoutAt := now + ms + timeoutInterval } := by
  have heq : sleepRun timeoutInterval st workflowId napId ms now
      = (updateWakeUpAt st workflowId napId (now + ms) (now + ms + timeoutInterval), ms) := by
    simp [sleepRun, habsent]
  have h₂ := findWorkflow_updateFirst_self st workflowId
    (fun u => { u with naps := listSet u.naps napId (now + ms),
                       timeoutAt := now + ms + timeoutInterval }) (fun _ => rfl)
  rw [hw] at h₂
  simp only [Option.map_some'] at h₂
  refine ⟨heq, ?_, ?_⟩
  · rw [heq]
    exact findWakeUpAt_updateWakeUpAt st workflowId napId (now + ms)
      (now + ms + timeoutInterval) w hw
  · rw [heq]
    exact h₂

/-- Witness for C7 at the spec's literal scenario: entry at `t = 1_000_000`
with `ms = 5000` and `timeoutInterval = 10_000` yields a nap record with
`wakeUpAt = 1_005_000` and instance `timeoutAt = 1_015_000`, and suspends
for 5000. -/
theorem sleep_first_entry_witness :
    findWakeUpAt [initialWorkflow "w1" "h" Value.null 0] "w1" "n1" = none
    ∧ sleepRun 10000 [initialWorkflow "w1" "h" Value.null 0] "w1" "n1" 5000 1000000
        = (updateWakeUpAt [initialWorkflow "w1" "h" Value.null 0] "w1" "n1" 1005000 1015000,
           5000)
    ∧ findWakeUpAt
        (sleepRun 10000 [initialWorkflow "w1" "h" Value.null 0] "w1" "n1" 5000 1000000).1
        "w1" "n1" = some 1005000
    ∧ (sleepRun 10000 [initialWorkflow "w1" "h" Value.null 0] "w1" "n1" 5000 1000000).1
        = [{ initialWorkflow "w1" "h" Value.null 0 with
              naps := [("n1", 1005000)], timeoutAt := 1015000 }] := by
  have h := sleep_first_entry 10000 [initialWorkflow "w1" "h" Value.null 0] "w1" "n1"
    5000 1000000 (initialWorkflow "w1" "h" Value.null 0) (by decide) (by decide)
  refine ⟨by decide, ?_, ?_, ?_⟩
  · exact h.1.trans (by decide)
  · exact h.2.1.trans (by decide)
  · rw [h.1]
    decide

/-- C6 (counterexample): an exception thrown by the configured
error-notification callback is not swallowed — the runner's catch branch
invokes the callback bare, so the thrown value propagates out of `#run`
(the run rejects instead of returning normally). -/
theorem errorCallback_throw_counterexample :
    (runCatch none 1000 (some exThrowingCallback) exRecordedStore "w1" 0
        (Value.str "handler-error") 5).2 = some (Value.str "boom")
    ∧ (runCatch none 1000 (some exThrowingCallback) exRecordedStore "w1" 0
        (Value.str "handler-error") 5).2 ≠ none :=
  ⟨rfl, by decide⟩

/-- C6 (amended): the failure is recorded via `#updateStatus` before the
callback runs, so the failure record survives in every case; a callback that
returns normally (or an absent callback) lets the run resolve normally, but
a callback that throws propagates its exception out of the runner, rejecting
the run (and, through `poll`'s rejection channel, the first such rejection
rejects the `poll` promise). -/
theorem errorCallback_propagates (maxFailures : Option Nat) (waitRetryInterval : Int)
    (errorCallback : Option (String → Value → Except Value Unit)) (st : Store)
    (workflowId : String) (failures0 : Nat) (err : Value) (now : Int) :
    (runCatch maxFailures waitRetryInterval errorCallback st workflowId failures0
        err now).1
      = updateStatus st workflowId (failureStatus maxFailures (failures0 + 1))
          (now + waitRetryInterval) (failures0 + 1)
    ∧ (errorCallback = none →
        (runCatch maxFailures waitRetryInterval errorCallback st workflowId failures0
          err now).2 = none)
    ∧ (∀ cb, errorCallback = some cb → cb workflowId err = Except.ok () →
        (runCatch maxFailures waitRetryInterval errorCallback st workflowId failures0
          err now).2 = none)
    ∧ (∀ cb e, errorCallback = some cb → cb workflowId err = Except.error e →
        (runCatch maxFailures waitRetryInterval errorCallback st workflowId failures0
          err now).2 = some e) := by
  refine ⟨?_, ?_, ?_, ?_⟩
  · cases errorCallback with
    | none => rfl
    | some cb =>
      cases hr : cb workflowId err with
      | ok u => simp [runCatch, hr]
      | error e => simp [runCatch, hr]
  · intro h
    subst h
    rfl
  · intro cb hcb hr
    subst hcb
    simp [runCatch, hr]
  · intro cb e hcb hr
    subst hcb
    simp [runCatch, hr]

/-- Witness for the amended C6: with a throwing callback the failure is still
recorded and the thrown value propagates. -/
theorem errorCallback_propagates_witness :
    (runCatch (some 3) 1000 (some exThrowingCallback) exRecordedStore "w1" 0
        Value.null 5).1
      = updateStatus exRecordedStore "w1" (failureStatus (some 3) (0 + 1)) (5 + 1000) (0 + 1)
    ∧ (runCatch (some 3) 1000 (some exThrowingCallback) exRecordedStore "w1" 0
        Value.null 5).2 = some (Value.str "boom") := by
  have h := errorCallback_propagates (some 3) 1000 (some exThrowingCallback)
    exRecordedStore "w1" 0 Value.null 5
  exact ⟨h.1, h.2.2.2 exThrowingCallback (Value.str "boom") rfl rfl⟩

theorem claimPred_iff (now : Int) (w : Workflow) :
    claimPred now w = true ↔
      ((w.status = Status.idle ∨ w.status = Status.running ∨ w.status = Status.failed)
        ∧ w.timeoutAt < now) := by
  simp [claimPred, or_assoc]

/-- C3: the claim operation selects only an instance with
`status ∈ {idle, running, failed}` and `timeoutAt` strictly earlier than
`now`; in the same (single, atomic in the model) operation it sets
`status = running` and `timeoutAt = now + timeoutInterval` on the selected
instance and returns its id; it returns none exactly when no candidate
exists, leaving the store unchanged; consequently an aborted or finished
instance is never claimed. -/
theorem claim_spec (st : Store) (now timeoutInterval : Int) :
    ((claim st now timeoutInterval).1 = none ↔ ∀ w ∈ st, claimPred now w = false)
    ∧ ((claim st now timeoutInterval).1 = none → (claim st now timeoutInterval).2 = st)
    ∧ (∀ workflowId w, idsNodup st →
        (claim st now timeoutInterval).1 = some workflowId →
        findWorkflow st workflowId = some w →
        (w.status = Status.idle ∨ w.status = Status.running ∨ w.status = Status.failed)
        ∧ w.timeoutAt < now
        ∧ findWorkflow (claim st now timeoutInterval).2 workflowId
            = some { w with status := Status.running,
                            timeoutAt := now + timeoutInterval })
    ∧ (∀ workflowId w, idsNodup st → findWorkflow st workflowId = some w →
        (w.status = Status.aborted ∨ w.status = Status.finished) →
        (claim st now timeoutInterval).1 ≠ some workflowId) := by
  refine ⟨⟨fun h => (claim_fst_none st now timeoutInterval h).2,
           claim_fst_none_of st now timeoutInterval⟩,
          fun h => (claim_fst_none st now timeoutInterval h).1, ?_, ?_⟩
  · intro workflowId w hnd hc hw
    rcases claim_findWorkflow st now timeoutInterval workflowId w hnd hc hw with ⟨hp, hres⟩
    rcases (claimPred_iff now w).mp hp with ⟨hs, ht⟩
    exact ⟨hs, ht, hres⟩
  · intro workflowId w hnd hw hterm hc
    rcases claim_findWorkflow st now timeoutInterval workflowId w hnd hc hw with ⟨hp, _⟩
    rcases (claimPred_iff now w).mp hp with ⟨hs, _⟩
    rcases hterm with h | h <;> rcases hs with h₂ | h₂ | h₂ <;> rw [h] at h₂ <;> cases h₂

/-- Witness for C3: a single idle instance due at 0 is claimed at `now = 1`;
its id comes back and the stored document is running with the fresh lease. -/
theorem claim_spec_witness :
    (claim [initialWorkflow "w1" "h" Value.null 0] 1 10000).1 = some "w1"
    ∧ findWorkflow (claim [initialWorkflow "w1" "h" Value.null 0] 1 10000).2 "w1"
        = some { initialWorkflow "w1" "h" Value.null 0 with
                  status := Status.running, timeoutAt := 1 + 10000 } := by
  have h := (claim_spec [initialWorkflow "w1" "h" Value.null 0] 1 10000).2.2.1
    "w1" (initialWorkflow "w1" "h" Value.null 0) (by unfold idsNodup; decide) (by decide)
    (by decide)
  exact ⟨by decide, h.2.2⟩

theorem waitFrom_timeout (stores : Nat → Store) (workflowId : String) :
    ∀ (fuel i : Nat),
      (∀ k, k < fuel → ∃ d, findStatusAndResult (stores (i + k)) workflowId = some d
          ∧ d.1 ≠ Status.finished) →
      waitFrom stores workflowId i fuel = Except.error WaitOutcome.waitTimeout := by
  intro fuel
  induction fuel with
  | zero => intro i _; rfl
  | succ n ih =>
    intro i h
    rcases h 0 (Nat.succ_pos n) with ⟨d, hd, hne⟩
    rw [Nat.add_zero] at hd
    simp only [waitFrom, hd]
    rw [if_neg hne]
    refine ih (i + 1) ?_
    intro k hk
    have harith : i + 1 + k = i + (k + 1) := by omega
    rw [harith]
    exact h (k + 1) (Nat.succ_lt_succ hk)

theorem waitFrom_probe (stores : Nat → Store) (workflowId : String) :
    ∀ (fuel t i : Nat), t < fuel →
      (∀ k, k < t → ∃ d, findStatusAndResult (stores (i + k)) workflowId = some d
          ∧ d.1 ≠ Status.finished) →
      (∀ r, findStatusAndResult (stores (i + t)) workflowId
            = some (Status.finished, r) →
          waitFrom stores workflowId i fuel = Except.ok r)
      ∧ (findStatusAndResult (stores (i + t)) workflowId = none →
          waitFrom stores workflowId i fuel
            = Except.error WaitOutcome.workflowNotFound) := by
  intro fuel
  induction fuel with
  | zero => intro t i ht; omega
  | succ n ih =>
    intro t i ht hpre
    cases t with
    | zero =>
      constructor
      · intro r hr
        rw [Nat.add_zero] at hr
        simp [waitFrom, hr]
      · intro hr
        rw [Nat.add_zero] at hr
        simp [waitFrom, hr]
    | succ t₀ =>
      rcases hpre 0 (Nat.succ_pos _) with ⟨d, hd, hne⟩
      rw [Nat.add_zero] at hd
      have hstep : waitFrom stores workflowId i (n + 1)
          = waitFrom stores workflowId (i + 1) n := by
        simp only [waitFrom, hd]
        rw [if_neg hne]
      have ih₂ := ih t₀ (i + 1) (Nat.lt_of_succ_lt_succ ht) (fun k hk => by
        have harith : i + 1 + k = i + (k + 1) := by omega
        rw [harith]
        exact hpre (k + 1) (Nat.succ_lt_succ hk))
      have harith₂ : i + 1 + t₀ = i + (t₀ + 1) := by omega
      rw [harith₂] at ih₂
      exact ⟨fun r hr => hstep.trans (ih₂.1 r hr), fun hr => hstep.trans (ih₂.2 hr)⟩

/-- C9: `wait` polls `#findStatusAndResult` up to `retries` times; it returns
the stored result at the first probe that observes `status = finished`,
fails with `WorkflowNotFound` at a probe that misses the instance, and fails
with `WaitTimeout` when all `retries` probes observe a non-finished status —
including when that status is `aborted`. -/
theorem wait_spec (stores : Nat → Store) (workflowId : String) (retries : Nat) :
    (∀ i, i < retries →
      (∀ k, k < i → ∃ d, findStatusAndResult (stores k) workflowId = some d
          ∧ d.1 ≠ Status.finished) →
      (∀ r, findStatusAndResult (stores i) workflowId = some (Status.finished, r) →
          waitRun stores workflowId retries = Except.ok r)
      ∧ (findStatusAndResult (stores i) workflowId = none →
          waitRun stores workflowId retries
            = Except.error WaitOutcome.workflowNotFound))
    ∧ ((∀ i, i < retries → ∃ d, findStatusAndResult (stores i) workflowId = some d
          ∧ d.1 ≠ Status.finished) →
        waitRun stores workflowId retries = Except.error WaitOutcome.waitTimeout) := by
  constructor
  · intro i hi hpre
    have h := waitFrom_probe stores workflowId retries i 0 hi (fun k hk => by
      rw [Nat.zero_add]
      exact hpre k hk)
    rw [Nat.zero_add] at h
    exact h
  · intro h
    exact waitFrom_timeout stores workflowId retries 0 (fun k hk => by
      rw [Nat.zero_add]
      exact h k hk)

/-- Witness for C9: with a trajectory that turns finished at the second
probe, `wait` with 3 retries returns `"ok"`; with a permanently aborted
instance it exhausts the budget and fails with `WaitTimeout`. -/
theorem wait_spec_witness :
    waitRun exWaitStores "w1" 3 = Except.ok (Value.str "ok")
    ∧ waitRun exAbortedStores "w1" 3 = Except.error WaitOutcome.waitTimeout := by
  constructor
  · refine ((wait_spec exWaitStores "w1" 3).1 1 (by omega) ?_).1 (Value.str "ok") (by decide)
    intro k hk
    have hk0 : k = 0 := by omega
    subst hk0
    exact ⟨(Status.running, Value.undef), by decide, by decide⟩
  · refine (wait_spec exAbortedStores "w1" 3).2 ?_
    intro i _
    exact ⟨(Status.aborted, Value.undef), rfl, by decide⟩

theorem pollFailIter_invariant (timeoutInterval waitRetryInterval : Int) (m : Nat)
    (times : Nat → Int) (w0 : Workflow)
    (hidle : w0.status = Status.idle) (hfail : w0.failures = 0)
    (ht0 : w0.timeoutAt < times 0)
    (hmono : ∀ j, times j + waitRetryInterval < times (j + 1)) :
    ∀ i, i ≤ m + 1 →
      pollFailIter timeoutInterval waitRetryInterval (some m) times [w0] i
        = [failDoc w0 m waitRetryInterval times i] := by
  intro i
  induction i with
  | zero =>
    intro _
    rfl
  | succ n ih =>
    intro hle
    have hnm : n ≤ m := by omega
    simp only [pollFailIter]
    rw [ih (by omega)]
    have hpred : claimPred (times n) (failDoc w0 m waitRetryInterval times n) = true := by
      apply (claimPred_iff _ _).mpr
      cases n with
      | zero => exact ⟨Or.inl hidle, ht0⟩
      | succ k =>
        constructor
        · right
          right
          show (failDoc w0 m waitRetryInterval times (k + 1)).status = Status.failed
          simp only [failDoc, failureStatus]
          rw [if_neg (by omega)]
        · show (failDoc w0 m waitRetryInterval times (k + 1)).timeoutAt < times (k + 1)
          simp only [failDoc]
          simpa using hmono k
    have hclaim : claim [failDoc w0 m waitRetryInterval times n] (times n) timeoutInterval
        = (some (failDoc w0 m waitRetryInterval times n).id,
           [{ failDoc w0 m waitRetryInterval times n with
                status := Status.running,
                timeoutAt := times n + timeoutInterval }]) := by
      simp [claim, hpred]
    simp only [pollFailCycle, hclaim]
    cases n with
    | zero =>
      simp [runFailStep, findRunData, findWorkflow, List.find?, updateStatus,
        updateFirst, failDoc, hfail]
    | succ k =>
      simp [runFailStep, findRunData, findWorkflow, List.find?, updateStatus,
        updateFirst, failDoc]

/-- C4: a run whose handler throws records `failures + 1`, sets
`status = aborted` exactly when a `maxFailures` is configured and the new
count exceeds it (otherwise `failed`), and sets
`timeoutAt = now + waitRetryInterval`; consequently, iterating
claim-plus-failing-run from a fresh idle instance with `maxFailures = m`,
the instance reaches `status = aborted` with `failures = m + 1` after
`m + 1` runs. -/
theorem handler_failure_spec (timeoutInterval waitRetryInterval : Int) (m : Nat)
    (times : Nat → Int) (w0 : Workflow)
    (hidle : w0.status = Status.idle) (hfail : w0.failures = 0)
    (ht0 : w0.timeoutAt < times 0)
    (hmono : ∀ j, times j + waitRetryInterval < times (j + 1)) :
    (∀ (maxFailures : Option Nat) (st : Store) (workflowId : String) (now : Int)
        (rd : RunData), findRunData st workflowId = some rd →
        runFailStep maxFailures waitRetryInterval st workflowId now
          = updateStatus st workflowId (failureStatus maxFailures (rd.failures + 1))
              (now + waitRetryInterval) (rd.failures + 1)
        ∧ (failureStatus maxFailures (rd.failures + 1) = Status.aborted
            ↔ ∃ k, maxFailures = some k ∧ rd.failures + 1 > k))
    ∧ pollFailIter timeoutInterval waitRetryInterval (some m) times [w0] (m + 1)
        = [{ w0 with
               failures := m + 1,
               status := Status.aborted,
               timeoutAt := times m + waitRetryInterval }] := by
  constructor
  · intro maxFailures st workflowId now rd hrd
    constructor
    · simp [runFailStep, hrd]
    · cases maxFailures with
      | none => simp [failureStatus]
      | some k =>
        simp only [failureStatus]
        by_cases hk : rd.failures + 1 > k
        · simp [hk]
        · simp [hk]
  · have h := pollFailIter_invariant timeoutInterval waitRetryInterval m times w0
      hidle hfail ht0 hmono (m + 1) (le_refl _)
    rw [h]
    have habort : failureStatus (some m) (m + 1) = Status.aborted := by
      simp only [failureStatus]
      rw [if_pos (by omega)]
    simp [failDoc, habort]

/-- Witness for C4 at `maxFailures = 2`: with cycles at 2000, 4000, 6000 the
instance is aborted with `failures = 3` after 3 runs. -/
theorem handler_failure_spec_witness :
    (∀ j, exTimes j + 1000 < exTimes (j + 1))
    ∧ pollFailIter 10000 1000 (some 2) exTimes [initialWorkflow "w1" "h" Value.null 0] 3
        = [{ initialWorkflow "w1" "h" Value.null 0 with
               failures := 3,
               status := Status.aborted,
               timeoutAt := exTimes 2 + 1000 }] := by
  have hmono : ∀ j, exTimes j + 1000 < exTimes (j + 1) := by
    intro j
    unfold exTimes
    push_cast
    omega
  exact ⟨hmono, (handler_failure_spec 10000 1000 2 exTimes
    (initialWorkflow "w1" "h" Value.null 0) rfl rfl (by decide) hmono).2⟩

theorem claimPred_terminal (now : Int) (w : Workflow)
    (h : w.status = Status.aborted ∨ w.status = Status.finished) :
    claimPred now w = false := by
  rcases h with h | h <;> simp [claimPred, h]

theorem setAsFinished_map_id (st : Store) (wid : String) (v : Value) :
    (setAsFinished st wid v).map Workflow.id = st.map Workflow.id :=
  updateFirst_map_id st wid _ (fun _ => rfl)

theorem findWorkflow_setAsFinished_other (st : Store) (wid wid₂ : String) (v : Value)
    (h : wid₂ ≠ wid) :
    findWorkflow (setAsFinished st wid v) wid₂ = findWorkflow st wid₂ :=
  findWorkflow_updateFirst_other st wid wid₂ _ (fun _ => rfl) h

theorem updateStatus_map_id (st : Store) (wid : String) (status : Status)
    (timeoutAt : Int) (failures : Nat) :
    (updateStatus st wid status timeoutAt failures).map Workflow.id
      = st.map Workflow.id :=
  updateFirst_map_id st wid _ (fun _ => rfl)

theorem findWorkflow_updateStatus_other (st : Store) (wid wid₂ : String)
    (status : Status) (timeoutAt : Int) (failures : Nat) (h : wid₂ ≠ wid) :
    findWorkflow (updateStatus st wid status timeoutAt failures) wid₂
      = findWorkflow st wid₂ :=
  findWorkflow_updateFirst_other st wid wid₂ _ (fun _ => rfl) h

theorem updateOutput_map_id (st : Store) (wid stepId : String) (output : Value)
    (timeoutAt : Int) :
    (updateOutput st wid stepId output timeoutAt).map Workflow.id
      = st.map Workflow.id :=
  updateFirst_map_id st wid _ (fun _ => rfl)

theorem findWorkflow_updateOutput_other (st : Store) (wid wid₂ stepId : String)
    (output : Value) (timeoutAt : Int) (h : wid₂ ≠ wid) :
    findWorkflow (updateOutput st wid stepId output timeoutAt) wid₂
      = findWorkflow st wid₂ :=
  findWorkflow_updateFirst_other st wid wid₂ _ (fun _ => rfl) h

theorem updateWakeUpAt_map_id (st : Store) (wid napId : String)
    (wakeUpAt timeoutAt : Int) :
    (updateWakeUpAt st wid napId wakeUpAt timeoutAt).map Workflow.id
      = st.map Workflow.id :=
  updateFirst_map_id st wid _ (fun _ => rfl)

theorem findWorkflow_updateWakeUpAt_other (st : Store) (wid wid₂ napId : String)
    (wakeUpAt timeoutAt : Int) (h : wid₂ ≠ wid) :
    findWorkflow (updateWakeUpAt st wid napId wakeUpAt timeoutAt) wid₂
      = findWorkflow st wid₂ :=
  findWorkflow_updateFirst_other st wid wid₂ _ (fun _ => rfl) h

theorem sysStep_preserves_terminal (timeoutInterval waitRetryInterval : Int)
    (maxFailures : Option Nat) (s s₂ : Sys) (workflowId : String) (w : Workflow)
    (hstep : SysStep timeoutInterval waitRetryInterval maxFailures s s₂)
    (hnd : idsNodup s.store)
    (hw : findWorkflow s.store workflowId = some w)
    (hterm : w.status = Status.aborted ∨ w.status = Status.finished)
    (hfree : runFree s workflowId) :
    idsNodup s₂.store ∧ findWorkflow s₂.store workflowId = some w
      ∧ runFree s₂ workflowId := by
  obtain ⟨hpend, hact⟩ := hfree
  cases hstep with
  | claimOne now wid st₁ htime hclaim =>
    have hst₁ : st₁ = (claim s.store now timeoutInterval).2 := by rw [hclaim]
    have hfalse : ∀ u ∈ s.store, u.id = workflowId → claimPred now u = false := by
      intro u hu hid
      rw [findWorkflow_unique s.store workflowId w hnd hw u hu hid]
      exact claimPred_terminal now w hterm
    have hwidne : wid ≠ workflowId := by
      intro hc
      subst hc
      have hc₂ : (claim s.store now timeoutInterval).1 = some wid := by rw [hclaim]
      rcases claim_fst_some s.store now timeoutInterval wid hc₂ with ⟨u, hu, huid, hup⟩
      rw [findWorkflow_unique s.store wid w hnd hw u hu huid] at hup
      rw [claimPred_terminal now w hterm] at hup
      exact Bool.false_ne_true hup
    refine ⟨?_, ?_, ?_, ?_⟩
    · show idsNodup st₁
      rw [idsNodup, hst₁, claim_map_id]
      exact hnd
    · show findWorkflow st₁ workflowId = some w
      rw [hst₁, claim_frame s.store now timeoutInterval workflowId hfalse]
      exact hw
    · show workflowId ∉ s.pending ++ [wid]
      intro hc
      rcases List.mem_append.mp hc with h | h
      · exact hpend h
      · exact hwidne (List.mem_singleton.mp h).symm
    · exact hact
  | readRun now wid rd htime hmem hrd =>
    refine ⟨hnd, hw, ?_, ?_⟩
    · show workflowId ∉ s.pending.erase wid
      intro hc
      exact hpend (List.mem_of_mem_erase hc)
    · intro tok htok
      rcases List.mem_cons.mp htok with rfl | hmem₂
      · show wid ≠ workflowId
        intro hc
        exact hpend (hc ▸ hmem)
      · exact hact tok hmem₂
  | finishOk now tok result htime htok =>
    have hne : workflowId ≠ tok.workflowId := fun hc => hact tok htok hc.symm
    refine ⟨?_, ?_, hpend, ?_⟩
    · show idsNodup (setAsFinished s.store tok.workflowId result)
      rw [idsNodup, setAsFinished_map_id]
      exact hnd
    · show findWorkflow (setAsFinished s.store tok.workflowId result) workflowId = some w
      rw [findWorkflow_setAsFinished_other _ _ _ _ hne]
      exact hw
    · intro tok₂ htok₂
      exact hact tok₂ (List.mem_of_mem_erase htok₂)
  | finishErr now tok htime htok =>
    have hne : workflowId ≠ tok.workflowId := fun hc => hact tok htok hc.symm
    refine ⟨?_, ?_, hpend, ?_⟩
    · show idsNodup (updateStatus s.store tok.workflowId
        (failureStatus maxFailures (tok.failures + 1)) (now + waitRetryInterval)
        (tok.failures + 1))
      rw [idsNodup, updateStatus_map_id]
      exact hnd
    · show findWorkflow (updateStatus s.store tok.workflowId
          (failureStatus maxFailures (tok.failures + 1)) (now + waitRetryInterval)
          (tok.failures + 1)) workflowId = some w
      rw [findWorkflow_updateStatus_other _ _ _ _ _ _ hne]
      exact hw
    · intro tok₂ htok₂
      exact hact tok₂ (List.mem_of_mem_erase htok₂)
  | stepWrite now tok stepId output htime htok =>
    have hne : workflowId ≠ tok.workflowId := fun hc => hact tok htok hc.symm
    refine ⟨?_, ?_, hpend, hact⟩
    · show idsNodup (updateOutput s.store tok.workflowId stepId output
        (now + timeoutInterval))
      rw [idsNodup, updateOutput_map_id]
      exact hnd
    · show findWorkflow (updateOutput s.store tok.workflowId stepId output
          (now + timeoutInterval)) workflowId = some w
      rw [findWorkflow_updateOutput_other _ _ _ _ _ _ hne]
      exact hw
  | napWrite now tok napId ms htime htok =>
    have hne : workflowId ≠ tok.workflowId := fun hc => hact tok htok hc.symm
    refine ⟨?_, ?_, hpend, hact⟩
    · show idsNodup (updateWakeUpAt s.store tok.workflowId napId (now + ms)
        (now + ms + timeoutInterval))
      rw [idsNodup, updateWakeUpAt_map_id]
      exact hnd
    · show findWorkflow (updateWakeUpAt s.store tok.workflowId napId (now + ms)
          (now + ms + timeoutInterval)) workflowId = some w
      rw [findWorkflow_updateWakeUpAt_other _ _ _ _ _ _ hne]
      exact hw
  | startNew now wid handlerId input htime hnone =>
    refine ⟨?_, ?_, hpend, hact⟩
    · show idsNodup (insertWorkflow s.store wid handlerId input now)
      rw [idsNodup, insertWorkflow, List.map_append]
      refine List.nodup_append.mpr ⟨hnd, List.nodup_singleton _, ?_⟩
      intro a ha hb
      rcases List.mem_map.mp ha with ⟨u, hu, rfl⟩
      exact findWorkflow_eq_none s.store wid hnone u hu (List.mem_singleton.mp hb)
    · show findWorkflow (insertWorkflow s.store wid handlerId input now) workflowId
        = some w
      exact findWorkflow_append_left s.store _ workflowId w hw

/-- C5 (amended): once an instance is finished or aborted it is never again
selected by `#claim`, and as long as no stale run is in flight for it
(neither claimed-but-unread nor actively running), no sequence of engine
transitions mutates it; the counterexample shows the no-stale-run
qualification is necessary — a zombie run under an overlapping lease can
still rewrite the instance through the unguarded `updateOne` writes. -/
theorem terminal_stable_without_stale_runs (timeoutInterval waitRetryInterval : Int)
    (maxFailures : Option Nat) (s s₂ : Sys) (workflowId : String) (w : Workflow)
    (hreach : Relation.ReflTransGen
      (SysStep timeoutInterval waitRetryInterval maxFailures) s s₂)
    (hnd : idsNodup s.store)
    (hw : findWorkflow s.store workflowId = some w)
    (hterm : w.status = Status.aborted ∨ w.status = Status.finished)
    (hfree : runFree s workflowId) :
    findWorkflow s₂.store workflowId = some w
    ∧ runFree s₂ workflowId
    ∧ ∀ (now₂ tI₂ : Int), (claim s₂.store now₂ tI₂).1 ≠ some workflowId := by
  have main : idsNodup s₂.store ∧ findWorkflow s₂.store workflowId = some w
      ∧ runFree s₂ workflowId := by
    induction hreach with
    | refl => exact ⟨hnd, hw, hfree⟩
    | tail _ hstep ih =>
      exact sysStep_preserves_terminal timeoutInterval waitRetryInterval maxFailures
        _ _ workflowId w hstep ih.1 ih.2.1 hterm ih.2.2
  refine ⟨main.2.1, main.2.2, ?_⟩
  intro now₂ tI₂ hc
  rcases claim_fst_some s₂.store now₂ tI₂ workflowId hc with ⟨u, hu, huid, hup⟩
  rw [findWorkflow_unique s₂.store workflowId w main.1 main.2.1 u hu huid] at hup
  rw [claimPred_terminal now₂ w hterm] at hup
  exact Bool.false_ne_true hup

/-- Witness for the amended C5: starting from one finished instance with no
run in flight, a `start` of a fresh id leaves the finished instance intact,
still run-free, and unclaimable. -/
theorem terminal_stable_without_stale_runs_witness :
    findWorkflow
        (Sys.store { store := insertWorkflow exTermSys.store "w2" "h" Value.null 5,
                     pending := exTermSys.pending, active := exTermSys.active, time := 5 })
        "w1" = some exTermDoc
    ∧ (claim (insertWorkflow exTermSys.store "w2" "h" Value.null 5) 99999 10000).1
        ≠ some "w1" := by
  have hstep : SysStep 10000 1000 none exTermSys
      { store := insertWorkflow exTermSys.store "w2" "h" Value.null 5,
        pending := exTermSys.pending, active := exTermSys.active, time := 5 } :=
    SysStep.startNew exTermSys 5 "w2" "h" Value.null (by decide) (by decide)
  have h := terminal_stable_without_stale_runs 10000 1000 none exTermSys _ "w1" exTermDoc
    (Relation.ReflTransGen.single hstep) (by unfold idsNodup; decide) (by decide)
    (Or.inr rfl) ⟨by simp [exTermSys], by simp [exTermSys]⟩
  exact ⟨h.1, h.2.2 99999 10000⟩

/-- C5 (counterexample): the claim fails as stated.  A reachable state — two
workers claimed the same instance under overlapping leases, worker B already
finished it with result `"ok"`, worker A's run is still in flight — admits a
further engine transition (A's failing finalization) that mutates the
finished instance: its status flips to failed, its lease and failure count
are rewritten. -/
theorem terminal_stickiness_counterexample :
    Relation.ReflTransGen (SysStep 10000 1000 none) exSys0 exSys5
    ∧ findStatusAndResult exSys5.store "w1" = some (Status.finished, Value.str "ok")
    ∧ SysStep 10000 1000 none exSys5 exSys6
    ∧ findStatusAndResult exSys6.store "w1" = some (Status.failed, Value.str "ok")
    ∧ findWorkflow exSys6.store "w1" ≠ findWorkflow exSys5.store "w1" := by
  have h₁ : SysStep 10000 1000 none exSys0
      { store := [{ id := "w1", handlerId := "h", input := Value.null, failures := 0,
                    status := Status.running, timeoutAt := 10001, result := Value.undef,
                    steps := [], naps := [] }],
        pending := ["w1"], active := [], time := 1 } :=
    SysStep.claimOne exSys0 1 "w1" _ (by decide) (by decide)
  have h₂ : SysStep 10000 1000 none
      { store := [{ id := "w1", handlerId := "h", input := Value.null, failures := 0,
                    status := Status.running, timeoutAt := 10001, result := Value.undef,
                    steps := [], naps := [] }],
        pending := ["w1"], active := [], time := 1 }
      { store := [{ id := "w1", handlerId := "h", input := Value.null, failures := 0,
                    status := Status.running, timeoutAt := 10001, result := Value.undef,
                    steps := [], naps := [] }],
        pending := [], active := [{ workflowId := "w1", failures := 0 }], time := 2 } :=
    SysStep.readRun _ 2 "w1" { handlerId := "h", input := Value.null, failures := 0 }
      (by decide) (by decide) (by decide)
  have h₃ : SysStep 10000 1000 none
      { store := [{ id := "w1", handlerId := "h", input := Value.null, failures := 0,
                    status := Status.running, timeoutAt := 10001, result := Value.undef,
                    steps := [], naps := [] }],
        pending := [], active := [{ workflowId := "w1", failures := 0 }], time := 2 }
      { store := [{ id := "w1", handlerId := "h", input := Value.null, failures := 0,
                    status := Status.running, timeoutAt := 20002, result := Value.undef,
                    steps := [], naps := [] }],
        pending := ["w1"], active := [{ workflowId := "w1", failures := 0 }],
        time := 10002 } :=
    SysStep.claimOne _ 10002 "w1" _ (by decide) (by decide)
  have h₄ : SysStep 10000 1000 none
      { store := [{ id := "w1", handlerId := "h", input := Value.null, failures := 0,
                    status := Status.running, timeoutAt := 20002, result := Value.undef,
                    steps := [], naps := [] }],
        pending := ["w1"], active := [{ workflowId := "w1", failures := 0 }],
        time := 10002 }
      { store := [{ id := "w1", handlerId := "h", input := Value.null, failures := 0,
                    status := Status.running, timeoutAt := 20002, result := Value.undef,
                    steps := [], naps := [] }],
        pending := [],
        active := [{ workflowId := "w1", failures := 0 },
                   { workflowId := "w1", failures := 0 }], time := 10003 } :=
    SysStep.readRun _ 10003 "w1" { handlerId := "h", input := Value.null, failures := 0 }
      (by decide) (by decide) (by decide)
  have h₅ : SysStep 10000 1000 none
      { store := [{ id := "w1", handlerId := "h", input := Value.null, failures := 0,
                    status := Status.running, timeoutAt := 20002, result := Value.undef,
                    steps := [], naps := [] }],
        pending := [],
        active := [{ workflowId := "w1", failures := 0 },
                   { workflowId := "w1", failures := 0 }], time := 10003 }
      exSys5 :=
    SysStep.finishOk _ 10004 { workflowId := "w1", failures := 0 } (Value.str "ok")
      (by decide) (by decide)
  have h₆ : SysStep 10000 1000 none exSys5 exSys6 :=
    SysStep.finishErr exSys5 10005 { workflowId := "w1", failures := 0 }
      (by decide) (by decide)
  exact ⟨((((Relation.ReflTransGen.single h₁).tail h₂).tail h₃).tail h₄).tail h₅,
    by decide, h₆, by decide, by decide⟩

end Bluestreak
